import Mathlib

/-!
Verification of the extensible macro/package dispatch engine.

A shallow embedding of the TeX-input core described by the repository's
specification: the stretchy-arrow subsystem (built-in table plus runtime
registration via `\Newextarrow`), argument validation with its exact error
message templates, the option merger with its append/remove directives, the
package registry with order-respecting handler resolution, and the concrete
`bboldx` package configuration from
`src/ts/input/tex/ieee/bboldx/BboldxConfiguration.ts`.

The TypeScript implementation of the arrow subsystem, argument validator,
option merger and registry is not part of the source excerpt (only its test
suite `src/testsuite/tests/input/tex/Extpfeil.test.ts` and the bboldx
configuration file are), so those operations are modelled from the
specification's component contracts; every constant of the built-in table is
validated against the exact strings the repository's tests expect.
-/

/-- A MathML-equivalent tree node: a kind tag, an attribute map, optional
token text (the character content of `mo`/`mi` token nodes) and an ordered
child list, as in the specification's data model. -/
inductive TreeNode where
  | mk (kind : String) (attrs : List (String × String)) (tokenText : String)
      (children : List TreeNode)

/-- The kind tag of a node. -/
def TreeNode.kindOf : TreeNode → String
  | .mk k _ _ _ => k

/-- The attribute map of a node. -/
def TreeNode.attrsOf : TreeNode → List (String × String)
  | .mk _ a _ _ => a

/-- The token text of a node (the glyph of an operator node). -/
def TreeNode.textOf : TreeNode → String
  | .mk _ _ s _ => s

/-- The ordered child list of a node. -/
def TreeNode.childrenOf : TreeNode → List TreeNode
  | .mk _ _ _ c => c

/-- Look up an attribute value on a node. -/
def attrOf (key : String) (t : TreeNode) : Option String :=
  (t.attrsOf.find? (fun p => p.1 = key)).map (fun p => p.2)

/-- An `mi` identifier node carrying one character of argument content, as
produced for the argument of a stretchy arrow in the test expectations. -/
def miNode (s : String) : TreeNode :=
  .mk "mi" [("data-latex", s)] s []

/-- The argument content `abcxyz` used throughout the repository's tests:
one `mi` node per character. -/
def contentABCXYZ : List TreeNode :=
  ["a", "b", "c", "x", "y", "z"].map miNode

/-- The argument content `xyz` used by the `Newextarrow` test. -/
def contentXYZ : List TreeNode :=
  ["x", "y", "z"].map miNode

/-! ## Spacing metric rendering

Modelled from the spec: the spacing constants of §4.6 are em values rendered
from the arrow's integer metrics; the specification carries the rendered
strings verbatim from the reference metrics table and the repository's tests
pin them (`0.667em`, `+1.556em`, …).  The reconstruction below renders
`n/18` em rounded to three decimal places, which reproduces every width and
lspace string of the five built-in arrows in
`src/testsuite/tests/input/tex/Extpfeil.test.ts` as well as the
user-defined-arrow expectations (`10,20 ↦ lspace 0.556em, width +1.667em`).
-/

/-- The value `n/18` scaled to thousandths and rounded to the nearest integer
(no tie is possible since `1000·n` is never `9 mod 18`). -/
def roundMilli18 (n : Nat) : Nat := (1000 * n + 9) / 18

/-- Zero-pad a fractional part to three digits. -/
def pad3 (n : Nat) : String :=
  if n < 10 then "00" ++ toString n
  else if n < 100 then "0" ++ toString n
  else toString n

/-- Render `n/18` em, `n : Nat`, to three decimal places. -/
def emAbs (n : Nat) : String :=
  let m := roundMilli18 n
  toString (m / 1000) ++ "." ++ pad3 (m % 1000) ++ "em"

/-- Render `i/18` em for a signed metric. -/
def emOf (i : Int) : String :=
  if i < 0 then "-" ++ emAbs i.natAbs else emAbs i.natAbs

/-! ## The stretchy-arrow subsystem -/

/-- An entry of the stretchy-arrow table: the stretchy glyph's unicode
codepoint and the two integer spacing metrics (left space `l`, with total
padding `l + r`), as in the specification's `ArrowDefinition`. -/
structure ArrowDef where
  chr : Nat
  l : Int
  r : Int
  deriving DecidableEq, Repr

/-- The arrow table, keyed by the control-sequence name that invokes the
arrow; later registrations are consed to the front so the last write wins. -/
abbrev ArrowTable := List (String × ArrowDef)

/-- First (most recent) entry for a name. -/
def lookupArrow : ArrowTable → String → Option ArrowDef
  | [], _ => none
  | (k, d) :: rest, name => if k = name then some d else lookupArrow rest name

/-- Modelled from the spec: the fixed built-in table of §4.6 (the
`extpfeil` implementation file is not in the excerpt).  Glyphs and metrics
are exactly those the repository's tests expect: each pair `(l, r)` renders
to the test's `lspace = l/18 em` and `width = +(l+r)/18 em` strings. -/
def builtinArrows : ArrowTable :=
  [("xtwoheadrightarrow", ⟨0x21A0, 12, 16⟩),
   ("xtwoheadleftarrow", ⟨0x219E, 17, 13⟩),
   ("xmapsto", ⟨0x21A6, 6, 7⟩),
   ("xlongequal", ⟨0x3D, 7, 7⟩),
   ("xtofrom", ⟨0x21C4, 12, 12⟩)]

/-- Modelled from the spec (§4.6 `lookupAndBuild` output shape): the outer
relation wrapper holding an empty "none"-class placeholder row and an
over-construct pairing the stretchy operator over a padded box that wraps
the argument content plus a trailing zero-width spacer of depth `.2em`,
with the fixed centering constants `voffset`/`height` `-.2em`. -/
def xArrowNode (d : ArrowDef) (content : List TreeNode) : TreeNode :=
  .mk "mrow" [("data-mjx-texclass", "REL")] ""
    [.mk "mrow" [("data-mjx-texclass", "NONE")] "" [],
     .mk "mover" [] ""
       [.mk "mo" [("data-mjx-texclass", "ORD"), ("stretchy", "true")]
          (String.singleton (Char.ofNat d.chr)) [],
        .mk "mpadded"
          [("width", "+" ++ emOf (d.l + d.r)), ("lspace", emOf d.l),
           ("voffset", "-.2em"), ("height", "-.2em")] ""
          (content ++ [.mk "mspace" [("depth", ".2em")] "" []])]]

/-- The stretchy-operator node of an arrow tree (the first child of the
over-construct). -/
def arrowOperator (t : TreeNode) : Option TreeNode :=
  match t with
  | .mk "mrow" _ _ [_, .mk "mover" _ _ [op, _]] => some op
  | _ => none

/-- The padded-box node of an arrow tree (the second child of the
over-construct). -/
def arrowPadded (t : TreeNode) : Option TreeNode :=
  match t with
  | .mk "mrow" _ _ [_, .mk "mover" _ _ [_, pad]] => some pad
  | _ => none

/-! ## Errors -/

/-- The abstract error kinds of the specification's §7. -/
inductive ErrKind where
  | duplicateName
  | unknownPackage
  | unknownControlSequence
  | controlSequenceName
  | integerPairFormat
  | codepointFormat
  | unterminatedGroup
  deriving DecidableEq, Repr

/-- A structured parse error: kind plus user-facing message. -/
structure TexError where
  kind : ErrKind
  message : String
  deriving DecidableEq, Repr

/-! ## Argument validation -/

/-- Split a character list at every comma. -/
def splitComma : List Char → List (List Char)
  | [] => [[]]
  | c :: rest =>
    if c = ',' then [] :: splitComma rest
    else
      match splitComma rest with
      | [] => [[c]]
      | g :: gs => (c :: g) :: gs

/-- Base-10 digits to a natural number. -/
def digitsToNat (ds : List Char) : Nat :=
  ds.foldl (fun n c => 10 * n + (c.toNat - 48)) 0

/-- Modelled from the spec (§4.5 integer-pair): parse a substring as a
base-10 integer with an optional leading minus; `none` on anything else. -/
def parseInteger : List Char → Option Int
  | [] => none
  | c :: rest =>
    if c = '-' then
      if rest.isEmpty then none
      else if rest.all Char.isDigit then some (-(digitsToNat rest : Int)) else none
    else if (c :: rest).all Char.isDigit then some (digitsToNat (c :: rest) : Int)
    else none

/-- Modelled from the spec (§4.5 integer-pair): the captured content must
split on a single comma into exactly two substrings each parsing as a
base-10 integer. -/
def parsePair (s : String) : Option (Int × Int) :=
  match splitComma s.toList with
  | [a, b] =>
    match parseInteger a, parseInteger b with
    | some x, some y => some (x, y)
    | _, _ => none
  | _ => none

/-- Modelled from the spec (§4.5 unicode-codepoint): the captured content
must parse as a base-10 integer within the valid codepoint range. -/
def parseCodepoint (s : String) : Option Nat :=
  if s.toList.isEmpty then none
  else if s.toList.all Char.isDigit then
    let n := digitsToNat s.toList
    if n ≤ 0x10FFFF then some n else none
  else none

/-- Modelled from the spec (§4.5 control-sequence-name): the captured text
must begin with the control-sequence escape marker `\`. -/
def isControlSequence (s : String) : Bool :=
  match s.toList with
  | '\\' :: _ => true
  | _ => false

/-- The table key of a control sequence: its name with the escape marker
stripped. -/
def csKey (s : String) : String :=
  String.mk (s.toList.drop 1)

/-- Modelled from the spec (§4.5, §4.6 `defineNew`): validate the three
captured arguments of the arrow-registration macro in order — the first
must begin with the control-sequence escape marker, the second must be an
integer pair, the third a unicode codepoint — raising the typed error with
the exact message template parameterized by the invoking macro's display
name; on success insert (or overwrite) the table entry under the
control-sequence name stripped of its escape marker. -/
def newExtArrow (macroName cs pair chr : String) (table : ArrowTable) :
    Except TexError ArrowTable :=
  if ¬ isControlSequence cs then
    .error ⟨.controlSequenceName,
      "First argument to " ++ macroName ++ " must be a control sequence name"⟩
  else
    match parsePair pair with
    | none =>
      .error ⟨.integerPairFormat,
        "Second argument to " ++ macroName ++
          " must be two integers separated by a comma"⟩
    | some (l, r) =>
      match parseCodepoint chr with
      | none =>
        .error ⟨.codepointFormat,
          "Third argument to " ++ macroName ++
            " must be a unicode character number"⟩
      | some cp => .ok ((csKey cs, ⟨cp, l, r⟩) :: table)

/-- Modelled from the spec (§4.6 `lookupAndBuild`): build the fixed tree
shape for a built-in or previously registered name; an unknown name is an
undefined control sequence. -/
def lookupAndBuild (table : ArrowTable) (name : String)
    (content : List TreeNode) : Except TexError TreeNode :=
  match lookupArrow table name with
  | none => .error ⟨.unknownControlSequence, "Undefined control sequence " ++ name⟩
  | some d => .ok (xArrowNode d content)

/-! ## Option values and the Option Merger -/

/-- A configuration option value: scalars, lists of names, or nested maps
(the directive wrappers of the source are maps whose single key is the
directive marker, e.g. `{'[+]': [...]}` in `BboldxConfiguration.ts`). -/
inductive OptionValue where
  | boolV (b : Bool)
  | strV (s : String)
  | strList (l : List String)
  | mapV (m : List (String × OptionValue))
  deriving Repr

/-- First value bound to a key in an association list. -/
def lookupAssoc {α : Type} : List (String × α) → String → Option α
  | [], _ => none
  | (k, v) :: rest, key => if k = key then some v else lookupAssoc rest key

/-- Replace the value at a key, or append the binding if absent. -/
def updateAssoc {α : Type} (m : List (String × α)) (key : String) (v : α) :
    List (String × α) :=
  if (lookupAssoc m key).isSome then
    m.map (fun p => if p.1 = key then (key, v) else p)
  else m ++ [(key, v)]

/-- Append new values to a base list, deduplicating by value. -/
def appendDedup (ys : List String) : List String → List String
  | [] => ys
  | x :: xs => if x ∈ ys then appendDedup ys xs else appendDedup (ys ++ [x]) xs

/-- Filter the removed values out of the base list. -/
def removeAll (ys : List String) (xs : List String) : List String :=
  ys.filter (fun y => decide (y ∉ xs))

mutual

/-- Modelled from the spec (§4.1 Option Merger): an override wrapped with
the append directive concatenates to a list-valued base (deduplicating by
value), the remove directive filters matching entries out, nested maps are
merged recursively, and any other override replaces the base outright. -/
def mergeValue : OptionValue → OptionValue → OptionValue
  | .strList ys, .mapV [("[+]", .strList xs)] => .strList (appendDedup ys xs)
  | .strList ys, .mapV [("[-]", .strList xs)] => .strList (removeAll ys xs)
  | .mapV bm, .mapV om => .mapV (mergeEntries bm om)
  | _, v => v

/-- Modelled from the spec (§4.1): fold the override map's entries into the
base map in order, merging each value against the base value at that key. -/
def mergeEntries (bm : List (String × OptionValue)) :
    List (String × OptionValue) → List (String × OptionValue)
  | [] => bm
  | (k, w) :: rest =>
    mergeEntries
      (updateAssoc bm k
        (match lookupAssoc bm k with
         | some b => mergeValue b w
         | none => w)) rest

end

/-! ## Package registry and resolution -/

/-- The handler lists of a configuration, by category: ordered lists of
named handler maps, as in `Configuration.create`'s `handler` field. -/
structure HandlerLists where
  macroHandlers : List String
  delimiterHandlers : List String
  deriving DecidableEq, Repr

/-- A named package configuration: handler lists by category, an option
map, and the parser target it contributes to (`tex` math mode by default,
`text` for text-macro packages). -/
structure Configuration where
  name : String
  parserTarget : String
  handler : HandlerLists
  options : List (String × OptionValue)

/-- The `Configuration.create` call shape as used in `BboldxConfiguration.ts`. -/
def Configuration.create (name : String) (parserTarget : String)
    (handler : HandlerLists) (options : List (String × OptionValue)) :
    Configuration :=
  ⟨name, parserTarget, handler, options⟩

/-- From `src/ts/input/tex/ieee/bboldx/BboldxConfiguration.ts` lines 32–39:
the companion text-macro configuration, registered under the `text` parser
target. -/
def textBboldxConfiguration : Configuration :=
  Configuration.create "text-bboldx" "text"
    { macroHandlers := ["text-bboldx", "text-bboldx-mathchar0miNormal",
        "text-bboldx-delimiterNormal", "text-bboldx-mathchar0miBold",
        "text-bboldx-delimiterBold"],
      delimiterHandlers := ["text-bboldx-delimiterNormal",
        "text-bboldx-delimiterBold"] }
    []

/-- From `src/ts/input/tex/ieee/bboldx/BboldxConfiguration.ts` lines 45–61:
the `bboldx` package configuration, with the `bfbb`/`light` switches
defaulting to `false` and the append-directive entry that adds
`text-bboldx` to the `textmacros.packages` list. -/
def BboldxConfiguration : Configuration :=
  Configuration.create "bboldx" "tex"
    { macroHandlers := ["bboldx", "bboldx-mathchar0miNormal",
        "bboldx-delimiterNormal", "bboldx-mathchar0miBold",
        "bboldx-delimiterBold"],
      delimiterHandlers := ["bboldx-delimiterNormal", "bboldx-delimiterBold"] }
    [("bboldx", .mapV [("bfbb", .boolV false), ("light", .boolV false)]),
     ("textmacros", .mapV [("packages", .mapV [("[+]", .strList ["text-bboldx"])])])]

/-- The configurations registered when the bboldx module is loaded, in the
order of the `Configuration.create` calls in the source file. -/
def bboldxRegistered : List Configuration :=
  [textBboldxConfiguration, BboldxConfiguration]

/-- The process-wide package registry of the specification's §4.2. -/
abbrev Registry := List Configuration

/-- Modelled from the spec (§4.2): registering a configuration fails with
`DuplicateNameError` if the name already exists. -/
def registerConfig (reg : Registry) (c : Configuration) : Except TexError Registry :=
  if reg.any (fun c0 => c0.name = c.name) then
    .error ⟨.duplicateName, "Package " ++ c.name ++ " is already registered"⟩
  else .ok (reg ++ [c])

/-- The configuration registered under a name. -/
def findConfig (reg : Registry) (name : String) : Option Configuration :=
  reg.find? (fun c => c.name = name)

/-- The result of resolving a package list: flattened handler tables by
category plus the merged option map. -/
structure EffectiveConfiguration where
  macroHandlers : List String
  delimiterHandlers : List String
  options : List (String × OptionValue)

/-- The empty running configuration resolution starts from. -/
def emptyEffective : EffectiveConfiguration := ⟨[], [], []⟩

/-- Modelled from the spec (§4.2): merging one configuration into the
running effective configuration appends its handler lists and merges its
options via the Option Merger. -/
def addConfig (e : EffectiveConfiguration) (c : Configuration) :
    EffectiveConfiguration :=
  ⟨e.macroHandlers ++ c.handler.macroHandlers,
   e.delimiterHandlers ++ c.handler.delimiterHandlers,
   mergeEntries e.options c.options⟩

/-- Resolution of an ordered configuration list into one effective
configuration, iterating in declaration order. -/
def resolveConfigs (cs : List Configuration) : EffectiveConfiguration :=
  cs.foldl addConfig emptyEffective

/-- Look up each requested package name; `UnknownPackageError` if any name
is unregistered. -/
def lookupPackages (reg : Registry) : List String → Except TexError (List Configuration)
  | [] => .ok []
  | n :: rest =>
    match findConfig reg n with
    | none => .error ⟨.unknownPackage, "Unknown package " ++ n⟩
    | some c =>
      match lookupPackages reg rest with
      | .error e => .error e
      | .ok cs => .ok (c :: cs)

/-- Modelled from the spec (§4.2 `resolve`): resolve a requested ordered
list of package names against the registry. -/
def resolve (reg : Registry) (names : List String) :
    Except TexError EffectiveConfiguration :=
  match lookupPackages reg names with
  | .error e => .error e
  | .ok cs => .ok (resolveConfigs cs)

/-! ## Handler dispatch -/

/-- The handler-table environment: each named handler map binds
control-sequence names to handler identifiers. -/
abbrev HandlerEnv := List (String × List (String × String))

/-- The handler a single named table binds for a control sequence. -/
def tableEntry (env : HandlerEnv) (tname cs : String) : Option String :=
  match lookupAssoc env tname with
  | none => none
  | some entries => lookupAssoc entries cs

/-- Modelled from the spec (§4.4, §4.2): dispatch over an ordered list of
handler-table names uses the last-registered table that binds the
control-sequence name. -/
def dispatchIn (env : HandlerEnv) : List String → String → Option String
  | [], _ => none
  | t :: rest, cs =>
    match dispatchIn env rest cs with
    | some h => some h
    | none => tableEntry env t cs

/-! ## The top-level parse driver -/

/-- A command of a document fragment, at the granularity the arrow
subsystem's tests exercise: an arrow registration or an arrow use. -/
inductive ParseCommand where
  | defineArrow (cs pair chr : String)
  | applyArrow (name : String) (content : List TreeNode)

/-- Run one command against the current arrow table, producing the updated
table and the nodes the command contributes. -/
def runCommand : ParseCommand → ArrowTable → Except TexError (ArrowTable × List TreeNode)
  | .defineArrow cs pair chr, t =>
    match newExtArrow "\\Newextarrow" cs pair chr t with
    | .error e => .error e
    | .ok t' => .ok (t', [])
  | .applyArrow name content, t =>
    match lookupAndBuild t name content with
    | .error e => .error e
    | .ok n => .ok (t, [n])

/-- Modelled from the spec (§4.4, §7 propagation policy): commands run in
sequence; the first error aborts the whole call and is returned as the
single structured error, with no partial output. -/
def runCommands : List ParseCommand → ArrowTable → Except TexError (ArrowTable × List TreeNode)
  | [], t => .ok (t, [])
  | c :: rest, t =>
    match runCommand c t with
    | .error e => .error e
    | .ok (t', ns) =>
      match runCommands rest t' with
      | .error e => .error e
      | .ok (t'', ms) => .ok (t'', ns ++ ms)

/-- Parse one document fragment starting from the built-in arrow table:
one root node list, or one structured error. -/
def parseFragment (cmds : List ParseCommand) : Except TexError (List TreeNode) :=
  match runCommands cmds builtinArrows with
  | .error e => .error e
  | .ok (_, ns) => .ok ns

/-! ## Theorems -/

/-- A pair in the built-in table is what lookup returns (the five built-in
names are distinct). -/
theorem lookupArrow_builtin_of_mem {name : String} {d : ArrowDef}
    (h : (name, d) ∈ builtinArrows) : lookupArrow builtinArrows name = some d := by
  simp only [builtinArrows, List.mem_cons, List.not_mem_nil, or_false,
    Prod.mk.injEq] at h
  rcases h with ⟨h1, h2⟩ | ⟨h1, h2⟩ | ⟨h1, h2⟩ | ⟨h1, h2⟩ | ⟨h1, h2⟩ <;>
    subst h1 <;> subst h2 <;> rfl

/-- Claim C1: for every built-in arrow name and every argument content,
`lookupAndBuild` produces a tree whose stretchy-operator glyph is the
arrow's fixed glyph and whose padded-box `width` and `lspace` attributes
are the stored constants, independent of the argument content; in
particular `xmapsto` (glyph U+21A6) with argument content `abcxyz` yields
padded-box width `+0.722em` and lspace `0.333em`. -/
theorem c1_builtin_arrow_constants (name : String) (d : ArrowDef)
    (hmem : (name, d) ∈ builtinArrows) (content : List TreeNode) :
    (∃ t, lookupAndBuild builtinArrows name content = .ok t ∧
      (arrowOperator t).map TreeNode.textOf =
        some (String.singleton (Char.ofNat d.chr)) ∧
      (arrowPadded t).bind (attrOf "width") = some ("+" ++ emOf (d.l + d.r)) ∧
      (arrowPadded t).bind (attrOf "lspace") = some (emOf d.l)) ∧
    lookupAndBuild builtinArrows "xmapsto" contentABCXYZ =
      .ok (xArrowNode ⟨0x21A6, 6, 7⟩ contentABCXYZ) ∧
    (arrowPadded (xArrowNode ⟨0x21A6, 6, 7⟩ contentABCXYZ)).bind (attrOf "width") =
      some "+0.722em" ∧
    (arrowPadded (xArrowNode ⟨0x21A6, 6, 7⟩ contentABCXYZ)).bind (attrOf "lspace") =
      some "0.333em" := by
  refine ⟨?_, rfl, rfl, rfl⟩
  have hl := lookupArrow_builtin_of_mem hmem
  refine ⟨xArrowNode d content, ?_, rfl, rfl, rfl⟩
  unfold lookupAndBuild
  rw [hl]

/-- Witness for C1 at `xmapsto` with empty content. -/
theorem c1_builtin_arrow_constants_witness :
    ("xmapsto", (⟨0x21A6, 6, 7⟩ : ArrowDef)) ∈ builtinArrows ∧
    (∃ t, lookupAndBuild builtinArrows "xmapsto" [] = .ok t ∧
      (arrowOperator t).map TreeNode.textOf =
        some (String.singleton (Char.ofNat 0x21A6)) ∧
      (arrowPadded t).bind (attrOf "width") = some ("+" ++ emOf (6 + 7)) ∧
      (arrowPadded t).bind (attrOf "lspace") = some (emOf 6)) :=
  ⟨by decide,
   (c1_builtin_arrow_constants "xmapsto" ⟨0x21A6, 6, 7⟩ (by decide) []).1⟩

/-- Claim C2: for every name bound in the arrow table and every argument
content (including none), `lookupAndBuild` returns the fixed shape: an
outer relation wrapper containing an empty "none"-class placeholder row
and an over-construct pairing the stretchy operator node (glyph, stretchy,
ordinary texclass) over a padded box wrapping the argument content plus a
trailing zero-width spacer. -/
theorem c2_lookupAndBuild_shape (table : ArrowTable) (name : String)
    (d : ArrowDef) (content : List TreeNode)
    (h : lookupArrow table name = some d) :
    lookupAndBuild table name content =
      .ok (TreeNode.mk "mrow" [("data-mjx-texclass", "REL")] ""
        [TreeNode.mk "mrow" [("data-mjx-texclass", "NONE")] "" [],
         TreeNode.mk "mover" [] ""
           [TreeNode.mk "mo" [("data-mjx-texclass", "ORD"), ("stretchy", "true")]
              (String.singleton (Char.ofNat d.chr)) [],
            TreeNode.mk "mpadded"
              [("width", "+" ++ emOf (d.l + d.r)), ("lspace", emOf d.l),
               ("voffset", "-.2em"), ("height", "-.2em")] ""
              (content ++ [TreeNode.mk "mspace" [("depth", ".2em")] "" []])]]) ∧
    lookupAndBuild table name [] =
      .ok (TreeNode.mk "mrow" [("data-mjx-texclass", "REL")] ""
        [TreeNode.mk "mrow" [("data-mjx-texclass", "NONE")] "" [],
         TreeNode.mk "mover" [] ""
           [TreeNode.mk "mo" [("data-mjx-texclass", "ORD"), ("stretchy", "true")]
              (String.singleton (Char.ofNat d.chr)) [],
            TreeNode.mk "mpadded"
              [("width", "+" ++ emOf (d.l + d.r)), ("lspace", emOf d.l),
               ("voffset", "-.2em"), ("height", "-.2em")] ""
              [TreeNode.mk "mspace" [("depth", ".2em")] "" []]]]) := by
  constructor <;> (unfold lookupAndBuild; rw [h]) <;> rfl

/-- Witness for C2 at `xmapsto`. -/
theorem c2_lookupAndBuild_shape_witness :
    lookupAndBuild builtinArrows "xmapsto" contentXYZ =
      .ok (TreeNode.mk "mrow" [("data-mjx-texclass", "REL")] ""
        [TreeNode.mk "mrow" [("data-mjx-texclass", "NONE")] "" [],
         TreeNode.mk "mover" [] ""
           [TreeNode.mk "mo" [("data-mjx-texclass", "ORD"), ("stretchy", "true")]
              (String.singleton (Char.ofNat 0x21A6)) [],
            TreeNode.mk "mpadded"
              [("width", "+" ++ emOf (6 + 7)), ("lspace", emOf 6),
               ("voffset", "-.2em"), ("height", "-.2em")] ""
              (contentXYZ ++ [TreeNode.mk "mspace" [("depth", ".2em")] "" []])]]) :=
  (c2_lookupAndBuild_shape builtinArrows "xmapsto" ⟨0x21A6, 6, 7⟩ contentXYZ rfl).1

/-- Claim C3: each argument-validation failure of the arrow-registration
handler raises exactly the spec's message template with the invoking
macro's display name substituted; for `\Newextarrow` the three literal
messages are the ones the repository's tests assert. -/
theorem c3_error_message_templates (macroName cs pair chr : String)
    (table : ArrowTable) :
    (isControlSequence cs = false →
      newExtArrow macroName cs pair chr table =
        .error ⟨.controlSequenceName,
          "First argument to " ++ macroName ++ " must be a control sequence name"⟩) ∧
    (isControlSequence cs = true → parsePair pair = none →
      newExtArrow macroName cs pair chr table =
        .error ⟨.integerPairFormat,
          "Second argument to " ++ macroName ++
            " must be two integers separated by a comma"⟩) ∧
    (∀ l r, isControlSequence cs = true → parsePair pair = some (l, r) →
      parseCodepoint chr = none →
      newExtArrow macroName cs pair chr table =
        .error ⟨.codepointFormat,
          "Third argument to " ++ macroName ++
            " must be a unicode character number"⟩) ∧
    newExtArrow "\\Newextarrow" "ab" "10,20" "8672" builtinArrows =
      .error ⟨.controlSequenceName,
        "First argument to \\Newextarrow must be a control sequence name"⟩ ∧
    newExtArrow "\\Newextarrow" "\\ab" "10" "8672" builtinArrows =
      .error ⟨.integerPairFormat,
        "Second argument to \\Newextarrow must be two integers separated by a comma"⟩ ∧
    newExtArrow "\\Newextarrow" "\\ab" "10,20" "AG" builtinArrows =
      .error ⟨.codepointFormat,
        "Third argument to \\Newextarrow must be a unicode character number"⟩ := by
  refine ⟨fun h => ?_, fun h1 h2 => ?_, fun l r h1 h2 h3 => ?_, rfl, rfl, rfl⟩
  · simp [newExtArrow, h]
  · simp [newExtArrow, h1, h2]
  · simp [newExtArrow, h1, h2, h3]

/-- Witness for C3: the three templates instantiated at the tests' inputs. -/
theorem c3_error_message_templates_witness :
    newExtArrow "\\Newextarrow" "ab" "10,20" "8672" builtinArrows =
      .error ⟨.controlSequenceName,
        "First argument to \\Newextarrow must be a control sequence name"⟩ ∧
    newExtArrow "\\Newextarrow" "\\ab" "10" "8672" builtinArrows =
      .error ⟨.integerPairFormat,
        "Second argument to \\Newextarrow must be two integers separated by a comma"⟩ ∧
    newExtArrow "\\Newextarrow" "\\ab" "10,20" "AG" builtinArrows =
      .error ⟨.codepointFormat,
        "Third argument to \\Newextarrow must be a unicode character number"⟩ :=
  ⟨(c3_error_message_templates "\\Newextarrow" "ab" "10,20" "8672" builtinArrows).1
      (by rfl),
   (c3_error_message_templates "\\Newextarrow" "\\ab" "10" "8672" builtinArrows).2.1
      (by rfl) (by rfl),
   (c3_error_message_templates "\\Newextarrow" "\\ab" "10,20" "AG" builtinArrows).2.2.1
      10 20 (by rfl) (by rfl) (by rfl)⟩

/-- Claim C4: registering an arrow and looking up the same control-sequence
name reproduces the just-registered glyph and constants, overriding any
prior entry of that name; the codepoint is read base-10 (after
`\Newextarrow{\ab}{10,20}{8672}`, `\ab{xyz}` builds an operator with glyph
U+21E0), and defining twice with identical arguments yields identical
output. -/
theorem c4_defineNew_overrides (macroName cs pair chr : String)
    (table : ArrowTable) (l r : Int) (cp : Nat)
    (h1 : isControlSequence cs = true)
    (h2 : parsePair pair = some (l, r))
    (h3 : parseCodepoint chr = some cp) :
    (newExtArrow macroName cs pair chr table =
        .ok ((csKey cs, ⟨cp, l, r⟩) :: table) ∧
      lookupArrow ((csKey cs, ⟨cp, l, r⟩) :: table) (csKey cs) = some ⟨cp, l, r⟩ ∧
      (∀ content,
        lookupAndBuild ((csKey cs, ⟨cp, l, r⟩) :: table) (csKey cs) content =
          .ok (xArrowNode ⟨cp, l, r⟩ content)) ∧
      newExtArrow macroName cs pair chr ((csKey cs, ⟨cp, l, r⟩) :: table) =
        .ok ((csKey cs, ⟨cp, l, r⟩) :: (csKey cs, ⟨cp, l, r⟩) :: table) ∧
      (∀ content,
        lookupAndBuild
            ((csKey cs, ⟨cp, l, r⟩) :: (csKey cs, ⟨cp, l, r⟩) :: table)
            (csKey cs) content =
          lookupAndBuild ((csKey cs, ⟨cp, l, r⟩) :: table) (csKey cs) content)) ∧
    newExtArrow "\\Newextarrow" "\\ab" "10,20" "8672" builtinArrows =
      .ok (("ab", ⟨8672, 10, 20⟩) :: builtinArrows) ∧
    lookupAndBuild (("ab", ⟨8672, 10, 20⟩) :: builtinArrows) "ab" contentXYZ =
      .ok (xArrowNode ⟨0x21E0, 10, 20⟩ contentXYZ) ∧
    (arrowOperator (xArrowNode ⟨0x21E0, 10, 20⟩ contentXYZ)).map TreeNode.textOf =
      some (String.singleton (Char.ofNat 0x21E0)) := by
  refine ⟨⟨?_, ?_, fun content => ?_, ?_, fun content => ?_⟩, rfl, rfl, rfl⟩
  · simp [newExtArrow, h1, h2, h3]
  · simp [lookupArrow]
  · simp [lookupAndBuild, lookupArrow]
  · simp [newExtArrow, h1, h2, h3]
  · simp [lookupAndBuild, lookupArrow]

/-- Witness for C4: registering `\cd` as `3,4`/`8673` over the empty table. -/
theorem c4_defineNew_overrides_witness :
    newExtArrow "\\Newextarrow" "\\cd" "3,4" "8673" [] =
      .ok [("cd", ⟨8673, 3, 4⟩)] :=
  (c4_defineNew_overrides "\\Newextarrow" "\\cd" "3,4" "8673" [] 3 4 8673
    (by rfl) (by rfl) (by rfl)).1.1

/-- The function `splitComma` never produces the empty list of groups. -/
theorem splitComma_ne_nil (l : List Char) : splitComma l ≠ [] := by
  cases l with
  | nil => simp [splitComma]
  | cons c rest =>
    simp only [splitComma]
    split
    · simp
    · cases h : splitComma rest <;> simp

/-- One group comes out of `splitComma` exactly when the input has no
comma. -/
theorem splitComma_eq_single (l a : List Char) :
    splitComma l = [a] ↔ l = a ∧ ',' ∉ a := by
  induction l generalizing a with
  | nil =>
    simp only [splitComma]
    constructor
    · intro h
      injection h with h1 h2
      subst h1
      exact ⟨rfl, by simp⟩
    · rintro ⟨rfl, -⟩
      rfl
  | cons c rest ih =>
    by_cases hc : c = ','
    · subst hc
      simp only [splitComma, if_pos rfl]
      constructor
      · intro h
        injection h with h1 h2
        exact absurd h2 (splitComma_ne_nil rest)
      · rintro ⟨rfl, hmem⟩
        exact absurd (List.mem_cons_self _ _) hmem
    · simp only [splitComma, if_neg hc]
      cases hs : splitComma rest with
      | nil => exact absurd hs (splitComma_ne_nil rest)
      | cons g gs =>
        constructor
        · intro h
          injection h with h1 h2
          subst h2
          obtain ⟨rfl, hg⟩ := (ih g).mp hs
          subst h1
          refine ⟨rfl, ?_⟩
          intro hm
          rcases List.mem_cons.mp hm with h | h
          · exact hc h.symm
          · exact hg h
        · rintro ⟨rfl, hmem⟩
          have h1 : ',' ∉ rest := fun hm => hmem (List.mem_cons_of_mem _ hm)
          have h2 : splitComma rest = [rest] := (ih rest).mpr ⟨rfl, h1⟩
          rw [hs] at h2
          injection h2 with hg hgs
          rw [hg, hgs]

/-- Two groups come out of `splitComma` exactly when the input is the two
groups joined by a single comma, neither group containing a comma. -/
theorem splitComma_eq_pair (l a b : List Char) :
    splitComma l = [a, b] ↔ l = a ++ ',' :: b ∧ ',' ∉ a ∧ ',' ∉ b := by
  induction l generalizing a with
  | nil =>
    simp only [splitComma]
    constructor
    · intro h
      injection h with h1 h2
      exact absurd h2 (by simp)
    · rintro ⟨h, -⟩
      exact absurd h (by simp)
  | cons c rest ih =>
    by_cases hc : c = ','
    · subst hc
      simp only [splitComma, if_pos rfl]
      constructor
      · intro h
        injection h with h1 h2
        obtain ⟨rfl, hb⟩ := (splitComma_eq_single rest b).mp h2
        subst h1
        exact ⟨rfl, by simp, hb⟩
      · rintro ⟨heq, ha, hb⟩
        cases a with
        | nil =>
          simp only [List.nil_append, List.cons.injEq, true_and] at heq
          subst heq
          rw [(splitComma_eq_single rest rest).mpr ⟨rfl, hb⟩]
          simp
        | cons a0 a' =>
          injection heq with h1 h2
          exact absurd (h1 ▸ List.mem_cons_self a0 a') ha
    · simp only [splitComma, if_neg hc]
      cases hs : splitComma rest with
      | nil => exact absurd hs (splitComma_ne_nil rest)
      | cons g gs =>
        constructor
        · intro h
          injection h with h1 h2
          have hgb : splitComma rest = [g, b] := by rw [hs, h2]
          obtain ⟨hr, hg, hb⟩ := (ih g).mp hgb
          subst h1
          subst hr
          refine ⟨rfl, ?_, hb⟩
          intro hm
          rcases List.mem_cons.mp hm with h | h
          · exact hc h.symm
          · exact hg h
        · rintro ⟨heq, ha, hb⟩
          cases a with
          | nil =>
            simp only [List.nil_append, List.cons.injEq] at heq
            exact absurd heq.1 hc
          | cons a0 a' =>
            injection heq with h1 hrest
            have ha' : ',' ∉ a' := fun hm => ha (List.mem_cons_of_mem _ hm)
            have h3 : splitComma rest = [a', b] := (ih a').mpr ⟨hrest, ha', hb⟩
            rw [hs] at h3
            injection h3 with hg hgs
            rw [hg, hgs, h1]

/-- The specification's integer-substring form, stated from its words:
nonempty base-10 digits with an optional leading minus. -/
def IsBase10Integer (x : List Char) : Prop :=
  ∃ ds, ds ≠ [] ∧ (∀ c ∈ ds, c.isDigit = true) ∧ (x = ds ∨ x = '-' :: ds)

/-- The executable integer parser accepts exactly the spec's
integer-substring form. -/
theorem parseInteger_isSome_iff (a : List Char) :
    (parseInteger a).isSome = true ↔ IsBase10Integer a := by
  cases a with
  | nil =>
    constructor
    · intro h
      simp [parseInteger] at h
    · rintro ⟨ds, hne, -, h | h⟩
      · exact absurd h.symm hne
      · exact absurd h (by simp)
  | cons c rest =>
    by_cases hc : c = '-'
    · subst hc
      constructor
      · intro h
        cases rest with
        | nil => simp [parseInteger] at h
        | cons r0 r' =>
          by_cases hd : (r0 :: r').all Char.isDigit
          · exact ⟨r0 :: r', by simp, List.all_eq_true.mp hd, Or.inr rfl⟩
          · simp [parseInteger, hd] at h
      · rintro ⟨ds, hne, hdig, h | h⟩
        · have hdsh : ('-' : Char).isDigit = true :=
            hdig '-' (h ▸ List.mem_cons_self '-' rest)
          exact absurd hdsh (by decide)
        · injection h with h1 h2
          subst h2
          cases rest with
          | nil => exact absurd rfl hne
          | cons r0 r' =>
            have hall : (r0 :: r').all Char.isDigit = true :=
              List.all_eq_true.mpr hdig
            simp [parseInteger, hall]
    · constructor
      · intro h
        by_cases hd : (c :: rest).all Char.isDigit
        · exact ⟨c :: rest, by simp, List.all_eq_true.mp hd, Or.inl rfl⟩
        · simp [parseInteger, hc, hd] at h
      · rintro ⟨ds, hne, hdig, h | h⟩
        · subst h
          simp [parseInteger, hc, List.all_eq_true.mpr hdig]
        · injection h with h1 h2
          exact absurd h1 hc

/-- The pair parser succeeds exactly when the comma split gives two groups
that both parse as integers. -/
theorem parsePair_isSome_iff (s : String) :
    (parsePair s).isSome = true ↔
      ∃ a b, splitComma s.toList = [a, b] ∧
        (parseInteger a).isSome = true ∧ (parseInteger b).isSome = true := by
  unfold parsePair
  cases hs : splitComma s.toList with
  | nil => simp
  | cons g gs =>
    cases gs with
    | nil => simp
    | cons g2 gs2 =>
      cases gs2 with
      | nil =>
        cases hg : parseInteger g with
        | none => simp [hg]
        | some x =>
          cases hg2 : parseInteger g2 with
          | none => simp [hg, hg2]
          | some y =>
            constructor
            · intro _
              refine ⟨g, g2, rfl, ?_, ?_⟩ <;> simp [hg, hg2]
            · intro _
              simp [hg, hg2]
      | cons g3 gs3 => simp

/-- Claim C5: integer-pair validation accepts a captured content string iff
it splits on a single comma into exactly two substrings each in the spec's
base-10-integer form; otherwise the handler raises
`IntegerPairFormatError`; in particular `10`, `10 20` and `aa` all fail. -/
theorem c5_integer_pair_validation (s : String) :
    ((parsePair s).isSome = true ↔
      ∃ a b, s.toList = a ++ ',' :: b ∧ ',' ∉ a ∧ ',' ∉ b ∧
        IsBase10Integer a ∧ IsBase10Integer b) ∧
    (∀ macroName cs chr table, isControlSequence cs = true → parsePair s = none →
      newExtArrow macroName cs s chr table =
        .error ⟨.integerPairFormat,
          "Second argument to " ++ macroName ++
            " must be two integers separated by a comma"⟩) ∧
    parsePair "10" = none ∧ parsePair "10 20" = none ∧ parsePair "aa" = none ∧
    parsePair "10,20" = some (10, 20) := by
  refine ⟨?_, fun macroName cs chr table h1 h2 => by simp [newExtArrow, h1, h2],
    rfl, rfl, rfl, rfl⟩
  rw [parsePair_isSome_iff]
  constructor
  · rintro ⟨a, b, hsp, ha, hb⟩
    obtain ⟨hl, hna, hnb⟩ := (splitComma_eq_pair _ a b).mp hsp
    exact ⟨a, b, hl, hna, hnb, (parseInteger_isSome_iff a).mp ha,
      (parseInteger_isSome_iff b).mp hb⟩
  · rintro ⟨a, b, hl, hna, hnb, ha, hb⟩
    exact ⟨a, b, (splitComma_eq_pair _ a b).mpr ⟨hl, hna, hnb⟩,
      (parseInteger_isSome_iff a).mpr ha, (parseInteger_isSome_iff b).mpr hb⟩

/-- Witness for C5: the handler rejects the pair argument `10` with the
exact `IntegerPairFormatError` message. -/
theorem c5_integer_pair_validation_witness :
    newExtArrow "\\Newextarrow" "\\ab" "10" "8672" builtinArrows =
      .error ⟨.integerPairFormat,
        "Second argument to \\Newextarrow must be two integers separated by a comma"⟩ :=
  (c5_integer_pair_validation "10").2.1 "\\Newextarrow" "\\ab" "8672" builtinArrows
    (by rfl) (by rfl)

/-- Claim C6: a parse-time error aborts the entire parse call — whatever
commands follow, the result is exactly that single structured error and no
partial node list; in particular when `\Newextarrow`'s first argument
fails validation, the following `\ab{xyz}` produces no output and the one
reported error is the first-argument error. -/
theorem c6_error_aborts_parse (pre : List ParseCommand) (c : ParseCommand)
    (post : List ParseCommand) (t0 t1 : ArrowTable) (ns : List TreeNode)
    (e : TexError)
    (hpre : runCommands pre t0 = .ok (t1, ns))
    (herr : runCommand c t1 = .error e) :
    runCommands (pre ++ c :: post) t0 = .error e ∧
    parseFragment [.defineArrow "ab" "10,20" "8672", .applyArrow "ab" contentXYZ] =
      .error ⟨.controlSequenceName,
        "First argument to \\Newextarrow must be a control sequence name"⟩ := by
  refine ⟨?_, rfl⟩
  induction pre generalizing t0 ns with
  | nil =>
    simp only [runCommands] at hpre
    injection hpre with hp
    injection hp with hp1 hp2
    subst hp1
    simp [runCommands, herr]
  | cons c0 rest ih =>
    simp only [runCommands, List.cons_append] at hpre ⊢
    cases h0 : runCommand c0 t0 with
    | error e0 => simp [h0] at hpre
    | ok p =>
      obtain ⟨t', ns0⟩ := p
      simp only [h0] at hpre ⊢
      cases h1 : runCommands rest t' with
      | error e1 => simp [h1] at hpre
      | ok q =>
        obtain ⟨t'', ms⟩ := q
        simp only [h1] at hpre
        injection hpre with hp
        injection hp with hp1 hp2
        subst hp1
        simp only [List.append_eq]
        rw [ih t' ms h1]

/-- Witness for C6: the first-argument failure of `\Newextarrow` aborts the
fragment even though an arrow use follows. -/
theorem c6_error_aborts_parse_witness :
    runCommands
        ([] ++ ParseCommand.defineArrow "ab" "10,20" "8672" ::
          [ParseCommand.applyArrow "ab" contentXYZ]) builtinArrows =
      .error ⟨.controlSequenceName,
        "First argument to \\Newextarrow must be a control sequence name"⟩ ∧
    parseFragment [.defineArrow "ab" "10,20" "8672", .applyArrow "ab" contentXYZ] =
      .error ⟨.controlSequenceName,
        "First argument to \\Newextarrow must be a control sequence name"⟩ :=
  c6_error_aborts_parse [] (.defineArrow "ab" "10,20" "8672")
    [.applyArrow "ab" contentXYZ] builtinArrows builtinArrows [] _ (by rfl) (by rfl)

/-- Membership after a deduplicating append is membership in either list. -/
theorem mem_appendDedup (a : String) (xs : List String) :
    ∀ ys, a ∈ appendDedup ys xs ↔ a ∈ ys ∨ a ∈ xs := by
  induction xs with
  | nil => intro ys; simp [appendDedup]
  | cons x xs ih =>
    intro ys
    simp only [appendDedup]
    by_cases hx : x ∈ ys
    · rw [if_pos hx, ih]
      constructor
      · rintro (h | h)
        · exact Or.inl h
        · exact Or.inr (List.mem_cons_of_mem _ h)
      · rintro (h | h)
        · exact Or.inl h
        · rcases List.mem_cons.mp h with rfl | h
          · exact Or.inl hx
          · exact Or.inr h
    · rw [if_neg hx, ih]
      simp only [List.mem_append, List.mem_singleton, List.mem_cons]
      tauto

/-- Appending values already present changes nothing. -/
theorem appendDedup_of_subset (xs : List String) :
    ∀ ys, (∀ x ∈ xs, x ∈ ys) → appendDedup ys xs = ys := by
  induction xs with
  | nil => intro ys _; rfl
  | cons x xs ih =>
    intro ys h
    simp only [appendDedup, if_pos (h x (List.mem_cons_self x xs))]
    exact ih ys fun z hz => h z (List.mem_cons_of_mem _ hz)

/-- Appending the same list twice is the same as appending it once. -/
theorem appendDedup_idem (ys xs : List String) :
    appendDedup (appendDedup ys xs) xs = appendDedup ys xs :=
  appendDedup_of_subset xs (appendDedup ys xs)
    (fun x hx => (mem_appendDedup x xs ys).mpr (Or.inr hx))

/-- The deduplicating append preserves duplicate-freedom. -/
theorem appendDedup_nodup (xs : List String) :
    ∀ ys, ys.Nodup → (appendDedup ys xs).Nodup := by
  induction xs with
  | nil => intro ys h; exact h
  | cons x xs ih =>
    intro ys h
    simp only [appendDedup]
    by_cases hx : x ∈ ys
    · rw [if_pos hx]
      exact ih ys h
    · rw [if_neg hx]
      refine ih (ys ++ [x]) ?_
      simp [List.nodup_append, h, hx, List.disjoint_singleton]

/-- Removing values that are not present is a no-op. -/
theorem removeAll_of_not_mem (ys xs : List String) (h : ∀ x ∈ xs, x ∉ ys) :
    removeAll ys xs = ys := by
  unfold removeAll
  rw [List.filter_eq_self]
  intro y hy
  simp only [decide_eq_true_eq]
  exact fun hyx => h y hyx hy

/-- Claim C7: merging a list-valued option wrapped with the append directive
concatenates deduplicating by value (appending the same list twice adds
nothing and preserves duplicate-freedom), the remove directive filters
matching entries (removing absent values is a no-op), and any other
override value replaces the base outright, recursing into nested maps. -/
theorem c7_option_merger (ys xs : List String) (b : OptionValue)
    (bm om : List (String × OptionValue)) :
    mergeValue (.strList ys) (.mapV [("[+]", .strList xs)]) =
      .strList (appendDedup ys xs) ∧
    (ys.Nodup → (appendDedup ys xs).Nodup) ∧
    appendDedup (appendDedup ys xs) xs = appendDedup ys xs ∧
    mergeValue (.strList ys) (.mapV [("[-]", .strList xs)]) =
      .strList (removeAll ys xs) ∧
    ((∀ x ∈ xs, x ∉ ys) → removeAll ys xs = ys) ∧
    mergeValue (.mapV bm) (.mapV om) = .mapV (mergeEntries bm om) ∧
    (∀ s, mergeValue b (.strV s) = .strV s) ∧
    (∀ bo, mergeValue b (.boolV bo) = .boolV bo) ∧
    (∀ zs, mergeValue b (.strList zs) = .strList zs) :=
  ⟨rfl, appendDedup_nodup xs ys, appendDedup_idem ys xs, rfl,
   removeAll_of_not_mem ys xs, rfl,
   fun s => by cases b <;> rfl, fun bo => by cases b <;> rfl,
   fun zs => by cases b <;> rfl⟩

/-- Witness for C7: appending `text-bboldx` twice to a one-element package
list adds it only once, and removing an absent value changes nothing. -/
theorem c7_option_merger_witness :
    appendDedup (appendDedup ["textmacros-base"] ["text-bboldx"]) ["text-bboldx"] =
      appendDedup ["textmacros-base"] ["text-bboldx"] ∧
    (["textmacros-base"] : List String).Nodup ∧
    removeAll ["textmacros-base"] ["text-bboldx"] = ["textmacros-base"] :=
  ⟨(c7_option_merger ["textmacros-base"] ["text-bboldx"] (.boolV false) [] []).2.2.1,
   by decide,
   (c7_option_merger ["textmacros-base"] ["text-bboldx"] (.boolV false) [] []).2.2.2.2.1
     (by decide)⟩

/-- Dispatch over appended table lists prefers the later (right) tables. -/
theorem dispatchIn_append (env : HandlerEnv) (xs ys : List String) (cs : String) :
    dispatchIn env (xs ++ ys) cs =
      match dispatchIn env ys cs with
      | some h => some h
      | none => dispatchIn env xs cs := by
  induction xs with
  | nil =>
    simp only [List.nil_append, dispatchIn]
    cases dispatchIn env ys cs <;> rfl
  | cons t rest ih =>
    simp only [List.cons_append, dispatchIn, List.append_eq, ih]
    cases dispatchIn env ys cs <;> rfl

/-- Claim C8: package resolution respects order for handler shadowing: if
both registered configurations A and B bind a handler for the same
control-sequence name, resolving the request `[A, B]` dispatches it to B's
handler and resolving `[B, A]` dispatches it to A's handler. -/
theorem c8_resolve_order_shadowing (env : HandlerEnv) (A B : Configuration)
    (foo hA hB : String)
    (hname : A.name ≠ B.name)
    (hBdef : dispatchIn env B.handler.macroHandlers foo = some hB)
    (hAdef : dispatchIn env A.handler.macroHandlers foo = some hA) :
    resolve [A, B] [A.name, B.name] = .ok (resolveConfigs [A, B]) ∧
    resolve [A, B] [B.name, A.name] = .ok (resolveConfigs [B, A]) ∧
    dispatchIn env (resolveConfigs [A, B]).macroHandlers foo = some hB ∧
    dispatchIn env (resolveConfigs [B, A]).macroHandlers foo = some hA := by
  refine ⟨?_, ?_, ?_, ?_⟩
  · simp [resolve, lookupPackages, findConfig, hname]
  · simp [resolve, lookupPackages, findConfig, hname, Ne.symm hname]
  · show dispatchIn env (([] ++ A.handler.macroHandlers) ++ B.handler.macroHandlers)
      foo = some hB
    rw [dispatchIn_append, hBdef]
  · show dispatchIn env (([] ++ B.handler.macroHandlers) ++ A.handler.macroHandlers)
      foo = some hA
    rw [dispatchIn_append, hAdef]

/-- Witness for C8: two concrete packages both binding `foo`. -/
theorem c8_resolve_order_shadowing_witness :
    resolve
        [Configuration.create "pkgA" "tex" ⟨["tblA"], []⟩ [],
         Configuration.create "pkgB" "tex" ⟨["tblB"], []⟩ []]
        ["pkgA", "pkgB"] =
      .ok (resolveConfigs
        [Configuration.create "pkgA" "tex" ⟨["tblA"], []⟩ [],
         Configuration.create "pkgB" "tex" ⟨["tblB"], []⟩ []]) ∧
    resolve
        [Configuration.create "pkgA" "tex" ⟨["tblA"], []⟩ [],
         Configuration.create "pkgB" "tex" ⟨["tblB"], []⟩ []]
        ["pkgB", "pkgA"] =
      .ok (resolveConfigs
        [Configuration.create "pkgB" "tex" ⟨["tblB"], []⟩ [],
         Configuration.create "pkgA" "tex" ⟨["tblA"], []⟩ []]) ∧
    dispatchIn [("tblA", [("foo", "handlerA")]), ("tblB", [("foo", "handlerB")])]
        (resolveConfigs
          [Configuration.create "pkgA" "tex" ⟨["tblA"], []⟩ [],
           Configuration.create "pkgB" "tex" ⟨["tblB"], []⟩ []]).macroHandlers
        "foo" = some "handlerB" ∧
    dispatchIn [("tblA", [("foo", "handlerA")]), ("tblB", [("foo", "handlerB")])]
        (resolveConfigs
          [Configuration.create "pkgB" "tex" ⟨["tblB"], []⟩ [],
           Configuration.create "pkgA" "tex" ⟨["tblA"], []⟩ []]).macroHandlers
        "foo" = some "handlerA" :=
  c8_resolve_order_shadowing
    [("tblA", [("foo", "handlerA")]), ("tblB", [("foo", "handlerB")])]
    (Configuration.create "pkgA" "tex" ⟨["tblA"], []⟩ [])
    (Configuration.create "pkgB" "tex" ⟨["tblB"], []⟩ [])
    "foo" "handlerA" "handlerB" (by decide) (by rfl) (by rfl)

/-- Claim C9: a successful registration with integer pair `l,r` stores a
left-space constant rendering `l/18` em and a padded-box width constant
rendering `(l+r)/18` em, each rounded to the nearest thousandth (the
rounding error of the thousandths value is at most `9/18000` em); the pair
`10,20` renders lspace `0.556em` and width `+1.667em`. -/
theorem c9_registration_metrics (macroName cs pair chr : String)
    (table : ArrowTable) (l r : Int) (cp : Nat)
    (h1 : isControlSequence cs = true)
    (h2 : parsePair pair = some (l, r))
    (h3 : parseCodepoint chr = some cp) :
    (∃ t2, newExtArrow macroName cs pair chr table = .ok t2 ∧
      ∀ content, ∃ t, lookupAndBuild t2 (csKey cs) content = .ok t ∧
        (arrowPadded t).bind (attrOf "lspace") = some (emOf l) ∧
        (arrowPadded t).bind (attrOf "width") = some ("+" ++ emOf (l + r))) ∧
    (∀ n : Nat, 1000 * n ≤ 18 * roundMilli18 n + 9 ∧
      18 * roundMilli18 n ≤ 1000 * n + 9) ∧
    emOf 10 = "0.556em" ∧ "+" ++ emOf (10 + 20) = "+1.667em" := by
  refine ⟨?_, ?_, rfl, rfl⟩
  · refine ⟨(csKey cs, ⟨cp, l, r⟩) :: table, by simp [newExtArrow, h1, h2, h3],
      fun content => ⟨xArrowNode ⟨cp, l, r⟩ content,
        by simp [lookupAndBuild, lookupArrow], rfl, rfl⟩⟩
  · intro n
    unfold roundMilli18
    have hdm := Nat.div_add_mod (1000 * n + 9) 18
    have hlt : (1000 * n + 9) % 18 < 18 := Nat.mod_lt _ (by norm_num)
    omega

/-- Witness for C9 at the pair `10,20`. -/
theorem c9_registration_metrics_witness :
    ∃ t2, newExtArrow "\\Newextarrow" "\\ab" "10,20" "8672" builtinArrows = .ok t2 ∧
      ∀ content, ∃ t, lookupAndBuild t2 (csKey "\\ab") content = .ok t ∧
        (arrowPadded t).bind (attrOf "lspace") = some (emOf 10) ∧
        (arrowPadded t).bind (attrOf "width") = some ("+" ++ emOf (10 + 20)) :=
  (c9_registration_metrics "\\Newextarrow" "\\ab" "10,20" "8672" builtinArrows
    10 20 8672 (by rfl) (by rfl) (by rfl)).1

/-- Claim C10: registering the bboldx module defines the `bboldx` option map
with `bfbb` and `light` defaulting to `false`, appends `text-bboldx` to
the `textmacros.packages` list through the `[+]` append directive, and
registers the companion `text-bboldx` configuration under the `text`
parser target with its macro and delimiter handler lists. -/
theorem c10_bboldx_configuration :
    BboldxConfiguration.name = "bboldx" ∧
    lookupAssoc BboldxConfiguration.options "bboldx" =
      some (.mapV [("bfbb", .boolV false), ("light", .boolV false)]) ∧
    lookupAssoc BboldxConfiguration.options "textmacros" =
      some (.mapV [("packages", .mapV [("[+]", .strList ["text-bboldx"])])]) ∧
    (∀ base : List String,
      mergeValue (.mapV [("packages", .strList base)])
          (.mapV [("packages", .mapV [("[+]", .strList ["text-bboldx"])])]) =
        .mapV [("packages", .strList (appendDedup base ["text-bboldx"]))]) ∧
    mergeEntries
        [("textmacros", .mapV [("packages", .strList ["textmacros-a"])])]
        BboldxConfiguration.options =
      [("textmacros",
          .mapV [("packages", .strList ["textmacros-a", "text-bboldx"])]),
       ("bboldx", .mapV [("bfbb", .boolV false), ("light", .boolV false)])] ∧
    BboldxConfiguration.handler.macroHandlers =
      ["bboldx", "bboldx-mathchar0miNormal", "bboldx-delimiterNormal",
       "bboldx-mathchar0miBold", "bboldx-delimiterBold"] ∧
    BboldxConfiguration.handler.delimiterHandlers =
      ["bboldx-delimiterNormal", "bboldx-delimiterBold"] ∧
    textBboldxConfiguration.name = "text-bboldx" ∧
    textBboldxConfiguration.parserTarget = "text" ∧
    textBboldxConfiguration.handler.macroHandlers =
      ["text-bboldx", "text-bboldx-mathchar0miNormal",
       "text-bboldx-delimiterNormal", "text-bboldx-mathchar0miBold",
       "text-bboldx-delimiterBold"] ∧
    textBboldxConfiguration.handler.delimiterHandlers =
      ["text-bboldx-delimiterNormal", "text-bboldx-delimiterBold"] ∧
    bboldxRegistered = [textBboldxConfiguration, BboldxConfiguration] :=
  ⟨rfl, rfl, rfl, fun _ => rfl, rfl, rfl, rfl, rfl, rfl, rfl, rfl, rfl⟩
